import Mathlib

/-!
Verification development for the python-lsm binding (lsm.c, the snapshot
shipped with the project).  The definitions below are a shallow embedding of
the binding's transaction-level controller, cursor state machine, range/slice
iterator and mutex discipline; keys and values are modelled as natural
numbers, engine result codes as integers (0 = LSM_OK).
-/

namespace PyLsm

/-- Lifecycle states of the binding's objects (enum PY_LSM_STATE in lsm.c:
INITIALIZED, OPENED, CLOSED, plus PY_LSM_ITERATING used by cursors and
iterator views). -/
inductive PyState where
  | initialized
  | opened
  | closed
  | iterating
deriving DecidableEq

/-- Image of the stored key/value pairs; the head of the list is the most
recent insert for a key (lookup takes the first hit). -/
abbrev StoreData := List (Nat × Nat)

/-- The Engine Handle collaborator (lsm1).  The engine itself is not part of
this binding's sources; its nested-transaction contract (spec section 6:
begin(level) / commit(level) / rollback(level)) is modelled as a data image
plus a bottom-indexed stack of snapshots, one per open transaction level:
snaps.get i is the image taken when level i+1 was opened. -/
structure Engine where
  data  : StoreData
  snaps : List StoreData
deriving DecidableEq

/-- Engine begin(level): open transactions until `level` are open, each new
level snapshotting the current image. -/
def engineBegin (lvl : Int) (e : Engine) : Engine :=
  { e with snaps := e.snaps ++ List.replicate (lvl.toNat - e.snaps.length) e.data }

/-- Engine commit(level): close every transaction above `level`, keeping
their writes in the image. -/
def engineCommit (lvl : Int) (e : Engine) : Engine :=
  { e with snaps := e.snaps.take lvl.toNat }

/-- Engine rollback(level): restore the image taken when transaction `level`
was opened and leave exactly `level` transactions open (level 0 closes and
undoes everything; a level above the open count is a no-op). -/
def engineRollback (lvl : Int) (e : Engine) : Engine :=
  let l := lvl.toNat
  if l ≤ e.snaps.length then
    if l = 0 then { data := e.snaps.headD e.data, snaps := [] }
    else { data := e.snaps.getD (l - 1) e.data, snaps := e.snaps.take l }
  else e

/-- Engine insert: the new pair shadows any previous binding of the key. -/
def engineInsert (k v : Nat) (e : Engine) : Engine :=
  { e with data := (k, v) :: e.data }

/-- Engine point lookup. -/
def engineLookup (k : Nat) (e : Engine) : Option Nat :=
  e.data.lookup k

/-- Engine delete: removes every binding of the key (no error when the key
is absent, per the lsm_delete contract). -/
def engineDelete (k : Nat) (e : Engine) : Engine :=
  { e with data := e.data.filter (fun p => p.1 != k) }

/-- Connection object (struct LSM in lsm.c): lifecycle state, read-only
flag, the tracked transaction level (int tx_level, initialised to 0 in
LSM_init) and the owned engine handle. -/
structure Conn where
  state    : PyState
  readonly : Bool
  tx_level : Int
  engine   : Engine
deriving DecidableEq

/-- Outcome of one wrapper operation: whether a Python exception was raised,
and the connection afterwards. -/
structure OpResult where
  raised : Bool
  conn   : Conn
deriving DecidableEq

/-- pylsm_ensure_writable: the connection must be OPENED and not read-only;
anything else raises before any engine call. -/
def pylsm_ensure_writable (c : Conn) : Bool :=
  c.state == PyState.opened && !c.readonly

/-- LSM_begin: writable check, clamp a negative tracked level to zero (a
field write), call the engine's begin at tx_level + 1 (rc is the result
code that call returns), and only on success store the new level. -/
def LSM_begin (rc : Int) (c : Conn) : OpResult :=
  if !pylsm_ensure_writable c then ⟨true, c⟩
  else
    let c := if c.tx_level < 0 then { c with tx_level := 0 } else c
    let level := c.tx_level + 1
    if rc != 0 then ⟨true, c⟩
    else ⟨false, { c with tx_level := level, engine := engineBegin level c.engine }⟩

/-- LSM_commit_inner: writable check, clamp a negative requested level (the
argument, not the field), engine commit under the mutex; the tracked
tx_level field is not touched on either path. -/
def LSM_commit_inner (rc : Int) (lvl : Int) (c : Conn) : OpResult :=
  if !pylsm_ensure_writable c then ⟨true, c⟩
  else
    let l := if lvl < 0 then 0 else lvl
    if rc != 0 then ⟨true, c⟩
    else ⟨false, { c with engine := engineCommit l c.engine }⟩

/-- LSM_rollback_inner: writable check, clamp a negative requested level,
engine rollback under the mutex; the tracked tx_level field is not touched
on either path. -/
def LSM_rollback_inner (rc : Int) (lvl : Int) (c : Conn) : OpResult :=
  if !pylsm_ensure_writable c then ⟨true, c⟩
  else
    let l := if lvl < 0 then 0 else lvl
    if rc != 0 then ⟨true, c⟩
    else ⟨false, { c with engine := engineRollback l c.engine }⟩

/-- LSM_commit (no-argument method): clamp the field, then commit at the
current tracked level. -/
def LSM_commit (rc : Int) (c : Conn) : OpResult :=
  let c := if c.tx_level < 0 then { c with tx_level := 0 } else c
  LSM_commit_inner rc c.tx_level c

/-- LSM_rollback (no-argument method): clamp the field, then roll back at
the current tracked level. -/
def LSM_rollback (rc : Int) (c : Conn) : OpResult :=
  let c := if c.tx_level < 0 then { c with tx_level := 0 } else c
  LSM_rollback_inner rc c.tx_level c

/-- Transaction handle (struct LSMTransaction): LSMTransaction_new records
the connection's tracked level at creation time. -/
structure Tx where
  state    : PyState
  tx_level : Int
deriving DecidableEq

/-- The transaction-level action a scope-exit or destructor performs. -/
inductive TxAction where
  | commitAt (lvl : Int)
  | rollbackAt (lvl : Int)
  | noAction
deriving DecidableEq

/-- LSMTransaction_ctx_exit, as the action it performs: nothing when the
handle is already CLOSED; commit at (level - 1) when exc_type is None
(normal exit); rollback at the handle's own level otherwise. -/
def LSMTransaction_ctx_exit_action (tx : Tx) (excRaised : Bool) : TxAction :=
  if tx.state == PyState.closed then .noAction
  else if !excRaised then .commitAt (tx.tx_level - 1)
  else .rollbackAt tx.tx_level

/-- LSMTransaction_dealloc, as the action it performs: a handle that is not
CLOSED, on a connection that is not CLOSED, is rolled back at the handle's
own level; a commit is never issued. -/
def LSMTransaction_dealloc_action (tx : Tx) (dbState : PyState) : TxAction :=
  if !(tx.state == PyState.closed) && !(dbState == PyState.closed) then
    .rollbackAt tx.tx_level
  else .noAction

/-- LSMTransaction_ctx_exit applied to the connection: marks the handle
CLOSED, then commit at (level - 1) on normal exit or rollback at the
handle's level on exceptional exit (rc is the engine result code). -/
def LSMTransaction_ctx_exit (rc : Int) (excRaised : Bool) (tx : Tx) (c : Conn) :
    Tx × OpResult :=
  if tx.state == PyState.closed then (tx, ⟨false, c⟩)
  else
    let tx2 : Tx := { tx with state := PyState.closed }
    if !excRaised then (tx2, LSM_commit_inner rc (tx.tx_level - 1) c)
    else (tx2, LSM_rollback_inner rc tx.tx_level c)

/-- LSMTransaction_commit: LSM_commit_inner at (level - 1), then a direct
lsm_begin at the handle's level (reopening a transaction at the same
depth); the tracked tx_level field is not touched by the raw begin.  rc1
and rc2 are the engine results of the two calls. -/
def LSMTransaction_commit (rc1 rc2 : Int) (tx : Tx) (c : Conn) : OpResult :=
  let r := LSM_commit_inner rc1 (tx.tx_level - 1) c
  if r.raised then r
  else if rc2 != 0 then ⟨true, r.conn⟩
  else ⟨false, { r.conn with engine := engineBegin tx.tx_level r.conn.engine }⟩

/-- LSMTransaction_rollback: LSM_rollback_inner at the handle's level. -/
def LSMTransaction_rollback (rc : Int) (tx : Tx) (c : Conn) : OpResult :=
  LSM_rollback_inner rc tx.tx_level c

/-- One write issued through the connection on the success path
(LSM_insert / LSM_set_del_item insert branch). -/
def connInsert (k v : Nat) (c : Conn) : Conn :=
  { c with engine := engineInsert k v c.engine }

/-- Sample opened writable connection at tracked level 2 with two open
engine transactions; used as concrete input by several witnesses. -/
def connL2 : Conn :=
  ⟨PyState.opened, false, 2, ⟨[], [[], []]⟩⟩

/-- Sample opened writable connection at tracked level 1 with one open
engine transaction. -/
def connL1 : Conn :=
  ⟨PyState.opened, false, 1, ⟨[], [[]]⟩⟩

/-- C1 (counterexample): on the opened writable connection connL2 whose
tracked level is 2, a successful rollback at level 1 (via a level-1
Transaction handle) leaves the tracked level at 2, so reading the level
immediately after the rollback does not yield 1. -/
theorem C1_rollback_counterexample :
    (LSM_rollback_inner 0 1 connL2).raised = false ∧
    (LSM_rollback_inner 0 1 connL2).conn.tx_level = 2 ∧
    ¬ (LSM_rollback_inner 0 1 connL2).conn.tx_level = 1 := by
  decide

/-- C1 (amended): a successful rollback performs the engine rollback at the
requested level but leaves the Connection's tracked transaction level
unchanged; the no-argument rollback requests the current level L itself, so
only there does reading the level immediately afterwards yield the
requested level. -/
theorem C1_rollback_tracked_level (c : Conn) (lvl : Int)
    (hw : pylsm_ensure_writable c = true) (h0 : 0 ≤ c.tx_level) :
    (LSM_rollback_inner 0 lvl c).raised = false ∧
    (LSM_rollback_inner 0 lvl c).conn.tx_level = c.tx_level ∧
    (LSM_rollback 0 c).conn.tx_level = c.tx_level := by
  have hclamp : ¬ c.tx_level < 0 := by omega
  unfold LSM_rollback LSM_rollback_inner
  simp [hw, hclamp]

/-- C1 witness: the amended statement at the concrete connection connL2 and
requested level 1. -/
theorem C1_rollback_tracked_level_witness :
    pylsm_ensure_writable connL2 = true ∧ 0 ≤ connL2.tx_level ∧
    ((LSM_rollback_inner 0 1 connL2).raised = false ∧
     (LSM_rollback_inner 0 1 connL2).conn.tx_level = connL2.tx_level ∧
     (LSM_rollback 0 connL2).conn.tx_level = connL2.tx_level) :=
  ⟨by decide, by decide, C1_rollback_tracked_level connL2 1 (by decide) (by decide)⟩

/-- C2: a scoped Transaction handle created at level n commits at (n - 1)
on normal scope exit without explicit action, rolls back at n (never
commits) on exceptional exit, and destroying a still-open handle on a live
connection rolls back at n and never commits. -/
theorem C2_scope_exit_actions (tx : Tx) (dbState : PyState)
    (hopen : ¬ tx.state = PyState.closed) (hdb : ¬ dbState = PyState.closed) :
    LSMTransaction_ctx_exit_action tx false = .commitAt (tx.tx_level - 1) ∧
    LSMTransaction_ctx_exit_action tx true = .rollbackAt tx.tx_level ∧
    LSMTransaction_dealloc_action tx dbState = .rollbackAt tx.tx_level := by
  unfold LSMTransaction_ctx_exit_action LSMTransaction_dealloc_action
  simp [hopen, hdb]

/-- C2 witness: the scope-exit actions at a concrete open handle at level 1
on an opened connection. -/
theorem C2_scope_exit_actions_witness :
    ¬ (Tx.mk PyState.initialized 1).state = PyState.closed ∧
    ¬ PyState.opened = PyState.closed ∧
    (LSMTransaction_ctx_exit_action ⟨PyState.initialized, 1⟩ false = .commitAt 0 ∧
     LSMTransaction_ctx_exit_action ⟨PyState.initialized, 1⟩ true = .rollbackAt 1 ∧
     LSMTransaction_dealloc_action ⟨PyState.initialized, 1⟩ PyState.opened = .rollbackAt 1) :=
  ⟨by decide, by decide,
   C2_scope_exit_actions ⟨PyState.initialized, 1⟩ PyState.opened (by decide) (by decide)⟩

/-- Helper: reading one past a prefix hits the appended element. -/
theorem getD_concat_self (xs : List StoreData) (a d : StoreData) :
    (xs ++ [a]).getD xs.length d = a := by
  induction xs with
  | nil => rfl
  | cons x xs ih =>
    simp only [List.cons_append, List.length_cons, List.getD_cons_succ]
    exact ih

/-- Helper: committing to (n - 1) and immediately beginning at n replaces
the topmost snapshot by the current image and keeps the image itself. -/
theorem engine_reopen_spec (e : Engine) (n : Int) (h1 : 1 ≤ n)
    (hs : e.snaps.length = n.toNat) :
    engineBegin n (engineCommit (n - 1) e)
      = ⟨e.data, e.snaps.take (n.toNat - 1) ++ [e.data]⟩ := by
  unfold engineBegin engineCommit
  have h2 : (n - 1).toNat = n.toNat - 1 := by omega
  have h3 : (e.snaps.take (n.toNat - 1)).length = n.toNat - 1 := by
    rw [List.length_take]; omega
  have h4 : n.toNat - (n.toNat - 1) = 1 := by omega
  simp only [h2, h3, h4, List.replicate]

/-- Helper: rolling back at n an engine whose top snapshot is d restores
the image d and keeps n transactions open. -/
theorem engine_rollback_top (pre : List StoreData) (d img : StoreData) (n : Int)
    (h1 : 1 ≤ n) (hp : pre.length = n.toNat - 1) :
    engineRollback n ⟨img, pre ++ [d]⟩ = ⟨d, pre ++ [d]⟩ := by
  have hlen : (pre ++ [d]).length = n.toNat := by
    simp only [List.length_append, List.length_singleton, hp]; omega
  have hle : n.toNat ≤ (pre ++ [d]).length := by omega
  have hnz : ¬ n.toNat = 0 := by omega
  have hd : (pre ++ [d]).getD (n.toNat - 1) img = d := by
    have hh : n.toNat - 1 = pre.length := by omega
    rw [hh, getD_concat_self]
  have ht : (pre ++ [d]).take n.toNat = pre ++ [d] :=
    List.take_of_length_le (by omega)
  simp only [engineRollback, hle, if_true, hnz, if_false, hd, ht]

/-- C3: a mid-scope commit() from a handle bound to level n commits through
the current depth and immediately reopens an engine transaction at the same
depth n, so a write made after the commit is discarded by a later rollback
of that scope while the image at commit time survives; the terminal commit
performed at normal scope exit does not reopen (depth drops to n - 1). -/
theorem C3_commit_reopen (c : Conn) (tx : Tx) (k v : Nat)
    (hw : pylsm_ensure_writable c = true)
    (htx : ¬ tx.state = PyState.closed)
    (hn : 1 ≤ tx.tx_level)
    (hs : c.engine.snaps.length = tx.tx_level.toNat) :
    (LSMTransaction_commit 0 0 tx c).raised = false ∧
    (LSMTransaction_commit 0 0 tx c).conn.engine.snaps.length = tx.tx_level.toNat ∧
    (LSMTransaction_rollback 0 tx
        (connInsert k v (LSMTransaction_commit 0 0 tx c).conn)).conn.engine.data
      = (LSMTransaction_commit 0 0 tx c).conn.engine.data ∧
    (LSMTransaction_ctx_exit 0 false tx c).2.conn.engine.snaps.length
      = tx.tx_level.toNat - 1 := by
  have hneg : ¬ tx.tx_level - 1 < 0 := by omega
  have hneg2 : ¬ tx.tx_level < 0 := by omega
  have hcommit :
      LSMTransaction_commit 0 0 tx c
        = ⟨false, { c with
            engine := engineBegin tx.tx_level (engineCommit (tx.tx_level - 1) c.engine) }⟩ := by
    unfold LSMTransaction_commit LSM_commit_inner
    simp [hw, hneg]
  have hre := engine_reopen_spec c.engine tx.tx_level hn hs
  have hpre : (c.engine.snaps.take (tx.tx_level.toNat - 1)).length
      = tx.tx_level.toNat - 1 := by
    rw [List.length_take]; omega
  refine ⟨by rw [hcommit], ?_, ?_, ?_⟩
  · rw [hcommit]
    simp only [hre, List.length_append, List.length_singleton, hpre]
    omega
  · rw [hcommit]
    simp only [hre]
    have hrb := engine_rollback_top (c.engine.snaps.take (tx.tx_level.toNat - 1))
      c.engine.data ((k, v) :: c.engine.data) tx.tx_level hn hpre
    unfold LSMTransaction_rollback LSM_rollback_inner connInsert engineInsert
      pylsm_ensure_writable
    unfold pylsm_ensure_writable at hw
    simp [hw, hneg2, hrb]
  · unfold LSMTransaction_ctx_exit LSM_commit_inner
    have h2 : (tx.tx_level - 1).toNat = tx.tx_level.toNat - 1 := by omega
    simp [htx, hw, hneg, engineCommit, h2]
    omega

/-- C3 witness: the commit-reopen behaviour at the concrete connection
connL1 with a level-1 handle and a post-commit write 5 := 7. -/
theorem C3_commit_reopen_witness :
    pylsm_ensure_writable connL1 = true ∧
    ¬ (Tx.mk PyState.initialized 1).state = PyState.closed ∧
    1 ≤ (Tx.mk PyState.initialized 1).tx_level ∧
    connL1.engine.snaps.length = (Tx.mk PyState.initialized 1).tx_level.toNat ∧
    ((LSMTransaction_commit 0 0 ⟨PyState.initialized, 1⟩ connL1).raised = false ∧
     (LSMTransaction_commit 0 0 ⟨PyState.initialized, 1⟩ connL1).conn.engine.snaps.length
        = (Tx.mk PyState.initialized 1).tx_level.toNat ∧
     (LSMTransaction_rollback 0 ⟨PyState.initialized, 1⟩
        (connInsert 5 7 (LSMTransaction_commit 0 0 ⟨PyState.initialized, 1⟩ connL1).conn)).conn.engine.data
        = (LSMTransaction_commit 0 0 ⟨PyState.initialized, 1⟩ connL1).conn.engine.data ∧
     (LSMTransaction_ctx_exit 0 false ⟨PyState.initialized, 1⟩ connL1).2.conn.engine.snaps.length
        = (Tx.mk PyState.initialized 1).tx_level.toNat - 1) :=
  ⟨by decide, by decide, by decide, by decide,
   C3_commit_reopen connL1 ⟨PyState.initialized, 1⟩ 5 7
     (by decide) (by decide) (by decide) (by decide)⟩

/-- C4: when the engine call behind begin / commit / rollback returns a
non-OK code, the wrapper raises and the connection — in particular its
tracked transaction level — is exactly as it was before the call (the
tracked level is never negative: it starts at 0 and is only ever
incremented). -/
theorem C4_error_leaves_level (c : Conn) (rc lvl : Int)
    (hw : pylsm_ensure_writable c = true) (h0 : 0 ≤ c.tx_level) (hrc : ¬ rc = 0) :
    LSM_begin rc c = ⟨true, c⟩ ∧
    LSM_commit_inner rc lvl c = ⟨true, c⟩ ∧
    LSM_rollback_inner rc lvl c = ⟨true, c⟩ ∧
    LSM_commit rc c = ⟨true, c⟩ ∧
    LSM_rollback rc c = ⟨true, c⟩ := by
  have hclamp : ¬ c.tx_level < 0 := by omega
  unfold LSM_begin LSM_commit LSM_rollback LSM_commit_inner LSM_rollback_inner
  simp [hw, hclamp, hrc]

/-- C4 witness: a busy engine (rc = 5) on connL2 raises and leaves the
connection untouched for all five entry points. -/
theorem C4_error_leaves_level_witness :
    pylsm_ensure_writable connL2 = true ∧ 0 ≤ connL2.tx_level ∧ ¬ (5 : Int) = 0 ∧
    (LSM_begin 5 connL2 = ⟨true, connL2⟩ ∧
     LSM_commit_inner 5 1 connL2 = ⟨true, connL2⟩ ∧
     LSM_rollback_inner 5 1 connL2 = ⟨true, connL2⟩ ∧
     LSM_commit 5 connL2 = ⟨true, connL2⟩ ∧
     LSM_rollback 5 connL2 = ⟨true, connL2⟩) :=
  ⟨by decide, by decide, by decide,
   C4_error_leaves_level connL2 5 1 (by decide) (by decide) (by decide)⟩

/-- Cursor seek disciplines (LSM_SEEK_EQ / LE / GE / LEFAST). -/
inductive SeekMode where
  | eq
  | le
  | ge
  | lefast
deriving DecidableEq

/-- Cursor object (struct LSMCursor): lifecycle state and the seek mode
recorded by the most recent seek (or at construction). -/
structure Cur where
  state     : PyState
  seek_mode : SeekMode
deriving DecidableEq

/-- What a cursor method does, abstracted: raise a local Python error,
return False / None locally, or issue the engine cursor call. -/
inductive CurOutcome where
  | raiseError
  | returnFalse
  | returnNone
  | engineAdvance
  | engineFetch
deriving DecidableEq

/-- Outcome of one cursor method plus whether any engine cursor primitive
was invoked on that path. -/
structure CurStep where
  outcome      : CurOutcome
  engineCalled : Bool
deriving DecidableEq

/-- pylsm_ensure_csr_opened: passes for an OPENED or ITERATING cursor whose
engine cursor is valid.  Quirk kept from the C code: when the borrowed
connection is not opened the guard returns 0 (pass) after setting the
error, so the check degenerates to pass. -/
def pylsm_ensure_csr_opened (cu : Cur) (dbOpened csrValid : Bool) : Bool :=
  if dbOpened == false then true
  else if cu.state == PyState.opened || cu.state == PyState.iterating then csrValid
  else false

/-- LSMCursor_next: iteration guard, open/valid guard, then the SEEK_EQ
short-circuit — which returns False without raising and without calling
the engine — then the validity short-circuit, then the engine step. -/
def LSMCursor_next (cu : Cur) (dbOpened csrValid : Bool) : CurStep :=
  if cu.state == PyState.iterating then ⟨.raiseError, false⟩
  else if !pylsm_ensure_csr_opened cu dbOpened csrValid then ⟨.raiseError, false⟩
  else if cu.seek_mode == SeekMode.eq then ⟨.returnFalse, false⟩
  else if !csrValid then ⟨.returnFalse, false⟩
  else ⟨.engineAdvance, true⟩

/-- LSMCursor_previous: like next, except that the SEEK_EQ short-circuit
raises a RuntimeError (still without any engine call). -/
def LSMCursor_previous (cu : Cur) (dbOpened csrValid : Bool) : CurStep :=
  if cu.state == PyState.iterating then ⟨.raiseError, false⟩
  else if !pylsm_ensure_csr_opened cu dbOpened csrValid then ⟨.raiseError, false⟩
  else if cu.seek_mode == SeekMode.eq then ⟨.raiseError, false⟩
  else if !csrValid then ⟨.returnFalse, false⟩
  else ⟨.engineAdvance, true⟩

/-- LSMCursor_value: iteration guard, open guard, validity gives None; no
check of the recorded seek mode at all — the fetch (lsm_csr_key and
lsm_csr_value) is issued for any mode, LEFAST included. -/
def LSMCursor_value (cu : Cur) (dbOpened csrValid : Bool) : CurStep :=
  if cu.state == PyState.iterating then ⟨.raiseError, false⟩
  else if !pylsm_ensure_csr_opened cu dbOpened csrValid then ⟨.raiseError, false⟩
  else if !csrValid then ⟨.returnNone, false⟩
  else ⟨.engineFetch, true⟩

/-- C7 (counterexample): on an opened cursor whose last seek used EQ,
next() is not reported as an error (it locally returns False); and on an
opened cursor positioned via LEFAST, retrieving a value is not rejected:
the fetch reaches the engine. -/
theorem C7_counterexample :
    LSMCursor_next ⟨PyState.opened, SeekMode.eq⟩ true true
        = ⟨CurOutcome.returnFalse, false⟩ ∧
    ¬ (LSMCursor_next ⟨PyState.opened, SeekMode.eq⟩ true true).outcome
        = CurOutcome.raiseError ∧
    (LSMCursor_value ⟨PyState.opened, SeekMode.lefast⟩ true true).engineCalled = true := by
  decide

/-- C7 (amended): after an EQ seek, previous() raises a local misuse error
without any engine call, while next() short-circuits locally without any
engine call but returns False instead of raising; after a LEFAST seek a
value retrieval is not rejected locally — the fetch is passed through to
the engine. -/
theorem C7_local_seek_mode_checks (cu : Cur) (csrValid : Bool)
    (hs : cu.state = PyState.opened) (hv : csrValid = true) :
    (cu.seek_mode = SeekMode.eq →
      LSMCursor_previous cu true csrValid = ⟨CurOutcome.raiseError, false⟩ ∧
      LSMCursor_next cu true csrValid = ⟨CurOutcome.returnFalse, false⟩) ∧
    (cu.seek_mode = SeekMode.lefast →
      LSMCursor_value cu true csrValid = ⟨CurOutcome.engineFetch, true⟩) := by
  subst hv
  constructor
  · intro hm
    unfold LSMCursor_previous LSMCursor_next pylsm_ensure_csr_opened
    simp [hs, hm]
  · intro hm
    unfold LSMCursor_value pylsm_ensure_csr_opened
    simp [hs]

/-- C7 witness: the amended statement at concrete EQ and LEFAST cursors. -/
theorem C7_local_seek_mode_checks_witness :
    (Cur.mk PyState.opened SeekMode.eq).state = PyState.opened ∧ true = true ∧
    ((Cur.mk PyState.opened SeekMode.eq).seek_mode = SeekMode.eq →
      LSMCursor_previous ⟨PyState.opened, SeekMode.eq⟩ true true
          = ⟨CurOutcome.raiseError, false⟩ ∧
      LSMCursor_next ⟨PyState.opened, SeekMode.eq⟩ true true
          = ⟨CurOutcome.returnFalse, false⟩) ∧
    ((Cur.mk PyState.opened SeekMode.eq).seek_mode = SeekMode.lefast →
      LSMCursor_value ⟨PyState.opened, SeekMode.eq⟩ true true
          = ⟨CurOutcome.engineFetch, true⟩) :=
  ⟨rfl, rfl,
   (C7_local_seek_mode_checks ⟨PyState.opened, SeekMode.eq⟩ true rfl rfl).1,
   (C7_local_seek_mode_checks ⟨PyState.opened, SeekMode.eq⟩ true rfl rfl).2⟩

/-- Engine entry points named by the mutex-discipline claim. -/
inductive EngFn where
  | fnInsert
  | fnDelete
  | fnDeleteRange
  | fnCsrOpen
  | fnCsrSeek
  | fnCsrNext
  | fnCsrPrev
  | fnCsrValue
  | fnCsrClose
  | fnBegin
  | fnCommit
  | fnRollback
  | fnWork
  | fnFlush
  | fnCheckpoint
  | fnInfo
deriving DecidableEq

/-- Events of one wrapper operation: taking or releasing the connection
mutex, or invoking an engine entry point. -/
inductive MEvent where
  | lock
  | unlock
  | call (f : EngFn)
deriving DecidableEq

/-- Scan a trace tracking whether the mutex is held; every engine call must
happen while it is held. -/
def callsUnderMutex : List MEvent → Bool → Bool
  | [], _ => true
  | .lock :: t, _ => callsUnderMutex t true
  | .unlock :: t, _ => callsUnderMutex t false
  | .call _ :: t, held => held && callsUnderMutex t held

/-- A trace is disciplined when every engine call happens between
LSM_MutexLock and LSM_MutexLeave. -/
def disciplined (t : List MEvent) : Bool := callsUnderMutex t false

/-- LSM_insert success path: lock, lsm_insert, unlock. -/
def trace_LSM_insert : List MEvent := [.lock, .call .fnInsert, .unlock]

/-- LSM_delete success path. -/
def trace_LSM_delete : List MEvent := [.lock, .call .fnDelete, .unlock]

/-- LSM_delete_range success path. -/
def trace_LSM_delete_range : List MEvent := [.lock, .call .fnDeleteRange, .unlock]

/-- LSM_getitem point-lookup success path: the whole pylsm_getitem cursor
sequence runs inside one lock/unlock pair. -/
def trace_LSM_getitem : List MEvent :=
  [.lock, .call .fnCsrOpen, .call .fnCsrSeek, .call .fnCsrValue, .call .fnCsrClose, .unlock]

/-- LSM_begin: the lsm_begin call is made with no LSM_MutexLock around it
(only Py_BEGIN_ALLOW_THREADS / Py_END_ALLOW_THREADS). -/
def trace_LSM_begin : List MEvent := [.call .fnBegin]

/-- LSM_commit_inner success path. -/
def trace_LSM_commit_inner : List MEvent := [.lock, .call .fnCommit, .unlock]

/-- LSM_rollback_inner success path. -/
def trace_LSM_rollback_inner : List MEvent := [.lock, .call .fnRollback, .unlock]

/-- LSMCursor_seek engine call. -/
def trace_LSMCursor_seek : List MEvent := [.lock, .call .fnCsrSeek, .unlock]

/-- LSMCursor_next engine step. -/
def trace_LSMCursor_next_step : List MEvent := [.lock, .call .fnCsrNext, .unlock]

/-- LSMCursor_previous engine step. -/
def trace_LSMCursor_previous_step : List MEvent := [.lock, .call .fnCsrPrev, .unlock]

/-- LSM_work: the do-while loop issues one or more lsm_work calls inside a
single lock/unlock pair (extra counts the additional iterations). -/
def trace_LSM_work (extra : Nat) : List MEvent :=
  [MEvent.lock] ++ List.replicate (extra + 1) (MEvent.call .fnWork) ++ [MEvent.unlock]

/-- LSM_flush success path. -/
def trace_LSM_flush : List MEvent := [.lock, .call .fnFlush, .unlock]

/-- LSM_checkpoint success path. -/
def trace_LSM_checkpoint : List MEvent := [.lock, .call .fnCheckpoint, .unlock]

/-- LSM_info non-readonly path: four lsm_info calls inside one pair. -/
def trace_LSM_info : List MEvent :=
  [.lock, .call .fnInfo, .call .fnInfo, .call .fnInfo, .call .fnInfo, .unlock]

/-- LSMTransaction_commit: LSM_commit_inner under the mutex, then the raw
reopening lsm_begin with no mutex around it. -/
def trace_LSMTransaction_commit : List MEvent :=
  trace_LSM_commit_inner ++ [.call .fnBegin]

/-- C8 (counterexample): begin() invokes the engine's lsm_begin without
acquiring the connection mutex, and so does the reopening lsm_begin inside
Transaction.commit(); the claimed universal discipline fails. -/
theorem C8_counterexample :
    disciplined trace_LSM_begin = false ∧
    disciplined trace_LSMTransaction_commit = false := by
  decide

/-- Helper: a run of calls inside one held section stays disciplined. -/
theorem callsUnderMutex_replicate (f : EngFn) (k : Nat) :
    callsUnderMutex (List.replicate k (MEvent.call f) ++ [MEvent.unlock]) true = true := by
  induction k with
  | zero => rfl
  | succ k ih => simpa [List.replicate, callsUnderMutex] using ih

/-- C8 (amended): every operation of the layer that invokes an engine
primitive does so while holding the connection mutex — except begin() and
the reopening lsm_begin inside Transaction.commit(), which call lsm_begin
without acquiring it. -/
theorem C8_mutex_discipline :
    disciplined trace_LSM_insert = true ∧
    disciplined trace_LSM_delete = true ∧
    disciplined trace_LSM_delete_range = true ∧
    disciplined trace_LSM_getitem = true ∧
    disciplined trace_LSM_commit_inner = true ∧
    disciplined trace_LSM_rollback_inner = true ∧
    disciplined trace_LSMCursor_seek = true ∧
    disciplined trace_LSMCursor_next_step = true ∧
    disciplined trace_LSMCursor_previous_step = true ∧
    (∀ extra : Nat, disciplined (trace_LSM_work extra) = true) ∧
    disciplined trace_LSM_flush = true ∧
    disciplined trace_LSM_checkpoint = true ∧
    disciplined trace_LSM_info = true ∧
    disciplined trace_LSM_begin = false ∧
    disciplined trace_LSMTransaction_commit = false := by
  refine ⟨by decide, by decide, by decide, by decide, by decide, by decide, by decide,
    by decide, by decide, ?_, by decide, by decide, by decide, by decide, by decide⟩
  intro extra
  unfold disciplined trace_LSM_work
  simp only [List.cons_append, List.nil_append, callsUnderMutex]
  exact callsUnderMutex_replicate .fnWork (extra + 1)

/-- is_power_of_two from lsm.c: the C code tests ceil(log2 n) == floor(log2 n)
on doubles, which over the uint32 domain holds exactly when n is a power of
two; modelled by the exact integer condition (0 is rejected explicitly). -/
def is_power_of_two (n : Nat) : Bool :=
  n != 0 && 2 ^ Nat.log2 n == n

/-- The block-size acceptance test of LSM_init: power of two and
64 <= block_size < 65537. -/
def block_size_ok (b : Nat) : Bool :=
  is_power_of_two b && decide (64 ≤ b) && decide (b < 65537)

/-- LSM_init validation ordering: with a rejected block size the
constructor raises before lsm_new and before any lsm_config call; with an
accepted one the engine is created and configured (the twelve baseline
lsm_config calls follow lsm_new). -/
def LSM_init_engine_call_count (b : Nat) : Nat :=
  if block_size_ok b then 13 else 0

/-- C9 (counterexample): 65536 is accepted by the constructor's block-size
check although it is not between 64 and 65535. -/
theorem C9_counterexample :
    block_size_ok 65536 = true ∧ ¬ (65536 : Nat) ≤ 65535 := by
  have hl : Nat.log2 65536 = 16 := by
    rw [show (65536 : Nat) = 2 ^ 16 from rfl, Nat.log2_two_pow]
  constructor
  · unfold block_size_ok is_power_of_two
    rw [hl]
    decide
  · decide

/-- C9 (amended): the constructor accepts a block size b, and only then
configures the engine, exactly when b is a power of two between 64 and
65536 inclusive (the code's upper comparison is b < 65537, one past the
65535 announced in its own error message). -/
theorem C9_block_size_accepts (b : Nat) :
    (block_size_ok b = true ↔ (∃ k, b = 2 ^ k) ∧ 64 ≤ b ∧ b ≤ 65536) ∧
    (block_size_ok b = false → LSM_init_engine_call_count b = 0) := by
  constructor
  · unfold block_size_ok is_power_of_two
    simp only [Bool.and_eq_true, bne_iff_ne, beq_iff_eq, decide_eq_true_eq]
    constructor
    · rintro ⟨⟨⟨hne, hpow⟩, h64⟩, hlt⟩
      exact ⟨⟨Nat.log2 b, hpow.symm⟩, h64, by omega⟩
    · rintro ⟨⟨k, rfl⟩, h64, hle⟩
      refine ⟨⟨⟨by positivity, ?_⟩, h64⟩, by omega⟩
      rw [Nat.log2_two_pow]
  · intro h
    unfold LSM_init_engine_call_count
    simp [h]

/-- C9 witness: block size 0 is rejected and leads to zero engine calls. -/
theorem C9_block_size_accepts_witness :
    block_size_ok 0 = false ∧ LSM_init_engine_call_count 0 = 0 :=
  ⟨by decide, (C9_block_size_accepts 0).2 (by decide)⟩

/-- Outcome of a delete entry point. -/
inductive DelOutcome where
  | ok
  | keyError
  | raisedError
deriving DecidableEq

/-- pylsm_delitem: open a cursor and SEEK_EQ on the key; when the cursor is
not valid (no exact match) return the local NOT-FOUND sentinel -1 with the
store untouched; otherwise close the cursor and issue lsm_delete. -/
def pylsm_delitem (e : Engine) (k : Nat) : Int × Engine :=
  if (engineLookup k e).isSome then (0, engineDelete k e)
  else (-1, e)

/-- LSM_set_del_item with no value (del db[key], non-slice path): run
pylsm_delitem under the mutex; a -1 result is reported as KeyError, any
other non-zero result as an engine error. -/
def LSM_set_del_item_delete (e : Engine) (k : Nat) : DelOutcome × Engine :=
  let r := pylsm_delitem e k
  if r.1 == -1 then (.keyError, r.2)
  else if r.1 != 0 then (.raisedError, r.2)
  else (.ok, r.2)

/-- LSM_delete: unconditional lsm_delete with no existence seek; the
success path (engine rc = 0) returns None regardless of the key's
presence. -/
def LSM_delete (e : Engine) (k : Nat) : DelOutcome × Engine :=
  (.ok, engineDelete k e)

/-- Helper: deleting a key that lookup cannot find leaves the image
untouched. -/
theorem filter_ne_of_lookup_none (l : StoreData) (k : Nat) (h : l.lookup k = none) :
    l.filter (fun p => p.1 != k) = l := by
  induction l with
  | nil => rfl
  | cons p t ih =>
    obtain ⟨pk, pv⟩ := p
    by_cases hk : k = pk
    · subst hk
      simp only [List.lookup, beq_self_eq_true] at h
      exact absurd h (by simp)
    · have hkb : (k == pk) = false := by simp [hk]
      have h2 : t.lookup k = none := by
        simp only [List.lookup, hkb] at h
        exact h
      have hne : (pk != k) = true := by
        simp only [bne_iff_ne, ne_eq]
        omega
      simp [List.filter, hne, ih h2]

/-- C10: deleting an absent key through the mapping interface performs the
EQ existence seek, reports KeyError and leaves the store unchanged, while
the delete(key) method issues the engine delete unconditionally and
returns success with the store likewise unchanged. -/
theorem C10_delitem_vs_delete (e : Engine) (k : Nat)
    (h : engineLookup k e = none) :
    LSM_set_del_item_delete e k = (DelOutcome.keyError, e) ∧
    (LSM_delete e k).1 = DelOutcome.ok ∧
    (LSM_delete e k).2 = e := by
  have hnone : (engineLookup k e).isSome = false := by rw [h]; rfl
  have hfix : engineDelete k e = e := by
    unfold engineDelete
    unfold engineLookup at h
    rw [filter_ne_of_lookup_none e.data k h]
  refine ⟨?_, rfl, by simp [LSM_delete, hfix]⟩
  unfold LSM_set_del_item_delete pylsm_delitem
  simp [hnone]

/-- C10 witness: key 9 absent from a one-pair store. -/
theorem C10_delitem_vs_delete_witness :
    engineLookup 9 ⟨[(1, 2)], []⟩ = none ∧
    (LSM_set_del_item_delete ⟨[(1, 2)], []⟩ 9 = (DelOutcome.keyError, ⟨[(1, 2)], []⟩) ∧
     (LSM_delete ⟨[(1, 2)], []⟩ 9).1 = DelOutcome.ok ∧
     (LSM_delete ⟨[(1, 2)], []⟩ 9).2 = ⟨[(1, 2)], []⟩) :=
  ⟨by decide, C10_delitem_vs_delete ⟨[(1, 2)], []⟩ 9 (by decide)⟩

/-- Iteration direction of a slice view (PY_LSM_SLICE_FORWARD/BACKWARD). -/
inductive SliceDir where
  | fwd
  | bwd
deriving DecidableEq

/-- lsm_csr_cmp: sign of (current key - probe key) under the engine's key
order (byte order, modelled on Nat keys). -/
def cmpInt (x y : Nat) : Int :=
  if x < y then -1 else if y < x then 1 else 0

/-- Key at a cursor position of the sorted key sequence. -/
def keyAt (keys : List Nat) (i : Nat) : Nat := keys.getD i 0

/-- lsm_csr_valid for a position-indexed cursor. -/
def csrValidAt (keys : List Nat) (p : Option Nat) : Bool :=
  match p with
  | some i => decide (i < keys.length)
  | none => false

/-- lsm_csr_seek with LSM_SEEK_GE on a sorted key sequence: least position
whose key is >= the probe. -/
def csrSeekGE (keys : List Nat) (k : Nat) : Option Nat :=
  keys.findIdx? (fun x => decide (k ≤ x))

/-- lsm_csr_seek with LSM_SEEK_LE on a sorted key sequence: greatest
position whose key is <= the probe. -/
def csrSeekLE (keys : List Nat) (k : Nat) : Option Nat :=
  ((List.range keys.length).filter (fun i => decide (keyAt keys i ≤ k))).getLast?

/-- lsm_csr_first. -/
def csrFirstP (keys : List Nat) : Option Nat :=
  if keys.length = 0 then none else some 0

/-- lsm_csr_last. -/
def csrLastP (keys : List Nat) : Option Nat :=
  if keys.length = 0 then none else some (keys.length - 1)

/-- lsm_csr_next: one step forward, invalid past the end. -/
def csrNextP (keys : List Nat) (p : Option Nat) : Option Nat :=
  match p with
  | some i => if i + 1 < keys.length then some (i + 1) else none
  | none => none

/-- lsm_csr_prev: one step backward, invalid past the start. -/
def csrPrevP (p : Option Nat) : Option Nat :=
  match p with
  | some i => if i = 0 then none else some (i - 1)
  | none => none

/-- Mutable state of LSMSliceView during iteration: engine cursor position
and the step counter. -/
structure SliceSt where
  pos     : Option Nat
  counter : Int
deriving DecidableEq

/-- The stop-bound test shared by pylsm_slice_first and pylsm_slice_next:
the iteration stops once the cursor key compares strictly past the stop
key — cmp > 0 forward, cmp < 0 backward; an exactly equal key does not
stop it. -/
def sliceStopHit (keys : List Nat) (stop : Option Nat) (dir : SliceDir) (p : Option Nat) : Bool :=
  match stop, p with
  | some s, some i =>
      (dir == SliceDir.fwd && decide (0 < cmpInt (keyAt keys i) s)) ||
      (dir == SliceDir.bwd && decide (cmpInt (keyAt keys i) s < 0))
  | _, _ => false

/-- pylsm_slice_first: the freshly positioned cursor yields its record
unless the stop bound is already passed or the cursor is invalid. -/
def pylsm_slice_first (keys : List Nat) (stop : Option Nat) (dir : SliceDir)
    (st : SliceSt) : Bool :=
  !sliceStopHit keys stop dir st.pos && csrValidAt keys st.pos

/-- pylsm_slice_next: single-step the engine cursor in the iteration
direction, stop permanently on an invalid cursor or on the stop bound,
count every single step, and yield when the counter is a multiple of step
(C truncated %, Int.tmod).  The fuel bounds the while loop; any fuel above
the key count is enough. -/
def pylsm_slice_next (keys : List Nat) (stop : Option Nat) (step : Int) (dir : SliceDir) :
    Nat → SliceSt → Option SliceSt
  | 0, _ => none
  | fuel + 1, st =>
    if !csrValidAt keys st.pos then none
    else
      let p := match dir with
        | SliceDir.fwd => csrNextP keys st.pos
        | SliceDir.bwd => csrPrevP st.pos
      if !csrValidAt keys p then none
      else if sliceStopHit keys stop dir p then none
      else
        let c := st.counter + 1
        if Int.tmod c step == 0 then some ⟨p, c⟩
        else pylsm_slice_next keys stop step dir fuel ⟨p, c⟩

/-- Repeated LSMSliceView_next calls after the first yield: collect the
keys yielded until exhaustion. -/
def sliceRun (keys : List Nat) (stop : Option Nat) (step : Int) (dir : SliceDir) :
    Nat → SliceSt → List Nat
  | 0, _ => []
  | n + 1, st =>
    match pylsm_slice_next keys stop step dir (keys.length + 1) st with
    | none => []
    | some st2 =>
      match st2.pos with
      | some i => keyAt keys i :: sliceRun keys stop step dir n st2
      | none => []

/-- LSMSliceView_init + pylsm_slice_view_iter + the LSMSliceView_next
protocol: direction from the sign of step, the two bounds swapped for
backward iteration, GE (forward) or LE (backward) seek on the start bound
— first/last record when it is absent — then the stream of yielded keys. -/
def sliceList (keys : List Nat) (startArg stopArg : Option Nat) (step : Int) : List Nat :=
  let dir : SliceDir := if 0 < step then SliceDir.fwd else SliceDir.bwd
  let start := match dir with
    | SliceDir.fwd => startArg
    | SliceDir.bwd => stopArg
  let stop := match dir with
    | SliceDir.fwd => stopArg
    | SliceDir.bwd => startArg
  let pos0 := match start with
    | some k => match dir with
        | SliceDir.fwd => csrSeekGE keys k
        | SliceDir.bwd => csrSeekLE keys k
    | none => match dir with
        | SliceDir.fwd => csrFirstP keys
        | SliceDir.bwd => csrLastP keys
  let st0 : SliceSt := ⟨pos0, 0⟩
  if pylsm_slice_first keys stop dir st0 then
    match st0.pos with
    | some i => keyAt keys i :: sliceRun keys stop step dir keys.length st0
    | none => []
  else []

/-- Helper: the comparison is positive exactly when the cursor key is
strictly past the probe. -/
theorem cmpInt_pos_iff (x y : Nat) : 0 < cmpInt x y ↔ y < x := by
  unfold cmpInt
  split_ifs <;> omega

/-- Helper: the comparison is negative exactly when the cursor key is
strictly before the probe. -/
theorem cmpInt_neg_iff (x y : Nat) : cmpInt x y < 0 ↔ x < y := by
  unfold cmpInt
  split_ifs <;> omega

/-- Helper: a forward stop-bound test that does not fire means the key is
at most the stop key. -/
theorem sliceStopHit_fwd_false (keys : List Nat) (s i : Nat)
    (h : sliceStopHit keys (some s) SliceDir.fwd (some i) = false) :
    keyAt keys i ≤ s := by
  by_contra hgt
  have hcmp : 0 < cmpInt (keyAt keys i) s := by
    rw [cmpInt_pos_iff]; omega
  have hhit : sliceStopHit keys (some s) SliceDir.fwd (some i) = true := by
    unfold sliceStopHit
    simp [hcmp]
  rw [hhit] at h
  exact absurd h (by decide)

/-- Helper: a backward stop-bound test that does not fire means the key is
at least the stop key. -/
theorem sliceStopHit_bwd_false (keys : List Nat) (s i : Nat)
    (h : sliceStopHit keys (some s) SliceDir.bwd (some i) = false) :
    s ≤ keyAt keys i := by
  by_contra hlt
  have hcmp : cmpInt (keyAt keys i) s < 0 := by
    rw [cmpInt_neg_iff]; omega
  have hhit : sliceStopHit keys (some s) SliceDir.bwd (some i) = true := by
    unfold sliceStopHit
    simp [hcmp]
  rw [hhit] at h
  exact absurd h (by decide)

/-- Helper: a forward slice step only yields positions whose key is at most
the stop key. -/
theorem slice_next_le_stop_fwd (keys : List Nat) (s : Nat) (step : Int)
    (fuel : Nat) (st st2 : SliceSt) (i : Nat)
    (h : pylsm_slice_next keys (some s) step SliceDir.fwd fuel st = some st2)
    (hp : st2.pos = some i) : keyAt keys i ≤ s := by
  induction fuel generalizing st with
  | zero => exact absurd h (by simp [pylsm_slice_next])
  | succ fuel ih =>
    simp only [pylsm_slice_next] at h
    by_cases h1 : csrValidAt keys st.pos
    · simp only [h1, Bool.not_true, Bool.false_eq_true, if_false] at h
      by_cases h2 : csrValidAt keys (csrNextP keys st.pos)
      · simp only [h2, Bool.not_true, Bool.false_eq_true, if_false] at h
        by_cases h3 : sliceStopHit keys (some s) SliceDir.fwd (csrNextP keys st.pos) = true
        · simp [h3] at h
        · rw [Bool.not_eq_true] at h3
          simp only [h3, Bool.false_eq_true, if_false] at h
          by_cases h4 : Int.tmod (st.counter + 1) step == 0
          · simp only [h4, if_true] at h
            obtain rfl : SliceSt.mk (csrNextP keys st.pos) (st.counter + 1) = st2 :=
              Option.some.inj h
            simp only at hp
            rw [hp] at h3
            exact sliceStopHit_fwd_false keys s i h3
          · simp only [h4, Bool.false_eq_true, if_false] at h
            exact ih ⟨csrNextP keys st.pos, st.counter + 1⟩ h
      · simp [h2] at h
    · simp [h1] at h

/-- Helper: a backward slice step only yields positions whose key is at
least the stop key. -/
theorem slice_next_ge_stop_bwd (keys : List Nat) (s : Nat) (step : Int)
    (fuel : Nat) (st st2 : SliceSt) (i : Nat)
    (h : pylsm_slice_next keys (some s) step SliceDir.bwd fuel st = some st2)
    (hp : st2.pos = some i) : s ≤ keyAt keys i := by
  induction fuel generalizing st with
  | zero => exact absurd h (by simp [pylsm_slice_next])
  | succ fuel ih =>
    simp only [pylsm_slice_next] at h
    by_cases h1 : csrValidAt keys st.pos
    · simp only [h1, Bool.not_true, Bool.false_eq_true, if_false] at h
      by_cases h2 : csrValidAt keys (csrPrevP st.pos)
      · simp only [h2, Bool.not_true, Bool.false_eq_true, if_false] at h
        by_cases h3 : sliceStopHit keys (some s) SliceDir.bwd (csrPrevP st.pos) = true
        · simp [h3] at h
        · rw [Bool.not_eq_true] at h3
          simp only [h3, Bool.false_eq_true, if_false] at h
          by_cases h4 : Int.tmod (st.counter + 1) step == 0
          · simp only [h4, if_true] at h
            obtain rfl : SliceSt.mk (csrPrevP st.pos) (st.counter + 1) = st2 :=
              Option.some.inj h
            simp only at hp
            rw [hp] at h3
            exact sliceStopHit_bwd_false keys s i h3
          · simp only [h4, Bool.false_eq_true, if_false] at h
            exact ih ⟨csrPrevP st.pos, st.counter + 1⟩ h
      · simp [h2] at h
    · simp [h1] at h

/-- Helper: every key yielded by the forward tail of a slice obeys the
inclusive stop bound. -/
theorem sliceRun_le_stop_fwd (keys : List Nat) (s : Nat) (step : Int)
    (n : Nat) (st : SliceSt) (k : Nat)
    (hk : k ∈ sliceRun keys (some s) step SliceDir.fwd n st) : k ≤ s := by
  induction n generalizing st with
  | zero => simp [sliceRun] at hk
  | succ n ih =>
    rw [sliceRun] at hk
    cases hcall : pylsm_slice_next keys (some s) step SliceDir.fwd (keys.length + 1) st with
    | none => rw [hcall] at hk; simp at hk
    | some st2 =>
      rw [hcall] at hk
      cases hpos : st2.pos with
      | none => simp only [hpos] at hk; simp at hk
      | some i =>
        simp only [hpos] at hk
        rcases List.mem_cons.mp hk with h | h
        · subst h
          exact slice_next_le_stop_fwd keys s step (keys.length + 1) st st2 i hcall hpos
        · exact ih st2 h

/-- Helper: every key yielded by the backward tail of a slice obeys the
inclusive stop bound. -/
theorem sliceRun_ge_stop_bwd (keys : List Nat) (s : Nat) (step : Int)
    (n : Nat) (st : SliceSt) (k : Nat)
    (hk : k ∈ sliceRun keys (some s) step SliceDir.bwd n st) : s ≤ k := by
  induction n generalizing st with
  | zero => simp [sliceRun] at hk
  | succ n ih =>
    rw [sliceRun] at hk
    cases hcall : pylsm_slice_next keys (some s) step SliceDir.bwd (keys.length + 1) st with
    | none => rw [hcall] at hk; simp at hk
    | some st2 =>
      rw [hcall] at hk
      cases hpos : st2.pos with
      | none => simp only [hpos] at hk; simp at hk
      | some i =>
        simp only [hpos] at hk
        rcases List.mem_cons.mp hk with h | h
        · subst h
          exact slice_next_ge_stop_bwd keys s step (keys.length + 1) st st2 i hcall hpos
        · exact ih st2 h

/-- Helper: the first yielded position of a slice obeys the inclusive stop
bound in its direction. -/
theorem slice_first_within_stop (keys : List Nat) (s : Nat) (dir : SliceDir)
    (st : SliceSt) (i : Nat)
    (h : pylsm_slice_first keys (some s) dir st = true) (hp : st.pos = some i) :
    (dir = SliceDir.fwd → keyAt keys i ≤ s) ∧
    (dir = SliceDir.bwd → s ≤ keyAt keys i) := by
  unfold pylsm_slice_first at h
  rw [hp] at h
  simp only [Bool.and_eq_true, Bool.not_eq_true'] at h
  obtain ⟨hstop, _⟩ := h
  constructor
  · intro hd
    subst hd
    exact sliceStopHit_fwd_false keys s i hstop
  · intro hd
    subst hd
    exact sliceStopHit_bwd_false keys s i hstop

/-- C5 (counterexample): on keys 0 and 1, the forward slice bounded by stop
key 1 yields the entry whose key is exactly the stop key. -/
theorem C5_counterexample :
    sliceList [0, 1] none (some 1) 1 = [0, 1] ∧
    1 ∈ sliceList [0, 1] none (some 1) 1 := by
  decide

/-- C5 (amended): the stop bound is inclusive, not exclusive: a forward
slice never yields a key greater than the stop key and a backward slice
never yields one smaller than its stop bound (the first slice argument,
after the backward swap of bounds), but a key exactly equal to the stop
bound is yielded. -/
theorem C5_stop_bound_inclusive (keys : List Nat) (startArg stopA : Option Nat)
    (s : Nat) (step : Int) (k : Nat) :
    (0 < step → k ∈ sliceList keys startArg (some s) step → k ≤ s) ∧
    (step < 0 → k ∈ sliceList keys (some s) stopA step → s ≤ k) := by
  constructor
  · intro hstep hk
    unfold sliceList at hk
    rw [if_pos hstep] at hk
    simp only at hk
    set pos0 := (match startArg with
      | some k => csrSeekGE keys k
      | none => csrFirstP keys) with hpos0
    by_cases hfirst : pylsm_slice_first keys (some s) SliceDir.fwd ⟨pos0, 0⟩ = true
    · rw [if_pos hfirst] at hk
      cases hp : pos0 with
      | none => rw [hp] at hk; simp at hk
      | some i =>
        rw [hp] at hk
        rcases List.mem_cons.mp hk with h | h
        · subst h
          have hb := slice_first_within_stop keys s SliceDir.fwd ⟨pos0, 0⟩ i hfirst hp
          exact hb.1 rfl
        · exact sliceRun_le_stop_fwd keys s step keys.length ⟨some i, 0⟩ k h
    · rw [if_neg hfirst] at hk
      simp at hk
  · intro hstep hk
    unfold sliceList at hk
    have hnot : ¬ 0 < step := by omega
    rw [if_neg hnot] at hk
    simp only at hk
    set pos0 := (match stopA with
      | some k => csrSeekLE keys k
      | none => csrLastP keys) with hpos0
    by_cases hfirst : pylsm_slice_first keys (some s) SliceDir.bwd ⟨pos0, 0⟩ = true
    · rw [if_pos hfirst] at hk
      cases hp : pos0 with
      | none => rw [hp] at hk; simp at hk
      | some i =>
        rw [hp] at hk
        rcases List.mem_cons.mp hk with h | h
        · subst h
          have hb := slice_first_within_stop keys s SliceDir.bwd ⟨pos0, 0⟩ i hfirst hp
          exact hb.2 rfl
        · exact sliceRun_ge_stop_bwd keys s step keys.length ⟨some i, 0⟩ k h
    · rw [if_neg hfirst] at hk
      simp at hk

/-- C5 witness: the inclusive bound at the concrete slice of the
counterexample — the yielded key 0 is within the stop bound 1. -/
theorem C5_stop_bound_inclusive_witness :
    (0 : Int) < 1 ∧ 0 ∈ sliceList [0, 1] none (some 1) 1 ∧ (0 : Nat) ≤ 1 :=
  ⟨by decide, by decide,
   (C5_stop_bound_inclusive [0, 1] none none 1 1 0).1 (by decide) (by decide)⟩

/-- C6: over any four sorted keys k0 < k1 < k2 < k3, the slice protocol
yields the first in-bounds record and thereafter every step-th record:
with no bounds and step 2 it yields exactly [k0, k2]; the backward slice
from k0 with step -1 yields the reverse of all keys >= k0; and with step -2
the magnitude is taken as absolute value, yielding [k3, k1]. -/
theorem C6_slice_step_direction (a b c d : Nat)
    (hab : a < b) (hbc : b < c) (hcd : c < d) :
    sliceList [a, b, c, d] none none 2 = [a, c] ∧
    sliceList [a, b, c, d] (some a) none (-1) = [d, c, b, a] ∧
    sliceList [a, b, c, d] (some a) none (-2) = [d, b] := by
  have t1 : Int.tmod 1 2 = 1 := by decide
  have t2 : Int.tmod 2 2 = 0 := by decide
  have t3 : Int.tmod 3 2 = 1 := by decide
  have e1 : cmpInt d a = 1 := by
    unfold cmpInt; rw [if_neg (by omega), if_pos (by omega)]
  have e2 : cmpInt c a = 1 := by
    unfold cmpInt; rw [if_neg (by omega), if_pos (by omega)]
  have e3 : cmpInt b a = 1 := by
    unfold cmpInt; rw [if_neg (by omega), if_pos (by omega)]
  have e4 : cmpInt a a = 0 := by
    unfold cmpInt; rw [if_neg (by omega), if_neg (by omega)]
  refine ⟨rfl, ?_, ?_⟩
  · simp [sliceList, sliceRun, pylsm_slice_next, pylsm_slice_first, sliceStopHit,
      csrLastP, csrPrevP, csrNextP, csrValidAt, keyAt, csrFirstP, csrSeekLE, csrSeekGE,
      e1, e2, e3, e4]
  · simp [sliceList, sliceRun, pylsm_slice_next, pylsm_slice_first, sliceStopHit,
      csrLastP, csrPrevP, csrNextP, csrValidAt, keyAt, csrFirstP, csrSeekLE, csrSeekGE,
      e1, e2, e3, e4, t1, t2, t3]

/-- C6 witness: the slice examples over the concrete sorted keys
0 < 1 < 2 < 3. -/
theorem C6_slice_step_direction_witness :
    (0 : Nat) < 1 ∧ (1 : Nat) < 2 ∧ (2 : Nat) < 3 ∧
    (sliceList [0, 1, 2, 3] none none 2 = [0, 2] ∧
     sliceList [0, 1, 2, 3] (some 0) none (-1) = [3, 2, 1, 0] ∧
     sliceList [0, 1, 2, 3] (some 0) none (-2) = [3, 1]) :=
  ⟨by decide, by decide, by decide,
   C6_slice_step_direction 0 1 2 3 (by decide) (by decide) (by decide)⟩

end PyLsm
